import Mathlib

/-!
Verification development for the thai-video-downloader GUI
(`src/gui/src/App.tsx`).  Pure parts of the frontend (URL checks,
formatting, the progress-event handlers, the queue scheduler pass) are
embedded directly; the Tauri backend commands that the frontend invokes
(`queue_add`, `queue_pause`, `queue_resume`, `queue_cancel`,
`queue_start_download`) are not part of the frontend source and their
state transitions are modelled from the specification.
-/

namespace ThaiVideo

/-! ## Data model (QueueItem, events, settings) from App.tsx -/

/-- Status enum for a queue item, from the QueueItem interface in App.tsx. -/
inductive QueueStatus
  | Pending
  | Downloading
  | Paused
  | Completed
  | Failed
  | Cancelled
  deriving DecidableEq, Repr

/-- A queue item as held in the frontend queue state (QueueItem interface in
App.tsx).  Ids are opaque strings produced by the backend; they are modelled
as naturals.  Timestamps are modelled as naturals as well. -/
structure QueueItem where
  id : Nat
  url : String
  title : String
  thumbnail : String
  quality : String
  output_dir : String
  output_filename : String
  status : QueueStatus
  progress : ℚ
  speed : String
  eta : String
  error : Option String
  file_path : Option String
  added_at : Nat
  deriving DecidableEq, Repr

/-- Payload of the queue_add invocation built in addToQueue (App.tsx);
exactly the six fields the frontend sends. -/
structure EnqueueRequest where
  url : String
  title : String
  thumbnail : String
  quality : String
  outputDir : String
  outputFilename : String
  deriving DecidableEq, Repr

/-- Payload of a queue-progress event (QueueProgress interface in App.tsx). -/
structure QueueProgress where
  id : Nat
  status : QueueStatus
  progress : ℚ
  speed : String
  eta : String
  message : String
  file_path : Option String
  deriving DecidableEq, Repr

/-! ## Scheduler pass (processQueue) and queue operations -/

/-- queue.filter(item => item.status === "Downloading").length from
processQueue / the auto-process effect in App.tsx. -/
def downloadingCount (q : List QueueItem) : Nat :=
  (q.filter (fun i => i.status == QueueStatus.Downloading)).length

/-- queue.filter(item => item.status === "Pending") from processQueue. -/
def pendingItems (q : List QueueItem) : List QueueItem :=
  q.filter (fun i => i.status == QueueStatus.Pending)

/-- Modelled from the spec: the effect of the backend queue_start_download
command invoked by processQueue — the admitted Pending item transitions to
Downloading. -/
def startDownload (item : QueueItem) : QueueItem :=
  { item with status := QueueStatus.Downloading }

/-- Transition the first k Pending items of the queue, in queue order, to
Downloading; this is the loop body of processQueue, which invokes
queue_start_download on pendingItems[0..k). -/
def admitPending : Nat → List QueueItem → List QueueItem
  | _, [] => []
  | 0, q => q
  | Nat.succ k, item :: rest =>
      if item.status == QueueStatus.Pending then
        startDownload item :: admitPending k rest
      else
        item :: admitPending (Nat.succ k) rest

/-- One scheduler pass: processQueue from App.tsx.  It counts Downloading
items, computes availableSlots = max_concurrent_downloads - activeCount (an
integer, possibly negative), and starts the first
min(pendingItems.length, availableSlots) Pending items in queue order. -/
def processQueue (maxConc : Nat) (q : List QueueItem) : List QueueItem :=
  let availableSlots : Int := (maxConc : Int) - (downloadingCount q : Int)
  admitPending (min ((pendingItems q).length : Int) availableSlots).toNat q

/-- Modelled from the spec: the backend queue_cancel command; a non-terminal
item transitions to Cancelled (cancellation is deliberate and does not touch
the recorded error). -/
def cancelItem (item : QueueItem) : QueueItem :=
  if item.status == QueueStatus.Pending || item.status == QueueStatus.Downloading
      || item.status == QueueStatus.Paused then
    { item with status := QueueStatus.Cancelled }
  else item

/-- Modelled from the spec: the backend queue_pause command; a Downloading
item transitions to Paused. -/
def pauseItem (item : QueueItem) : QueueItem :=
  if item.status == QueueStatus.Downloading then
    { item with status := QueueStatus.Paused }
  else item

/-- Modelled from the spec: the backend queue_resume command, invoked by the
frontend both from the Resume button (Paused items) and from the Retry button
(Failed items).  The item returns to Pending; the frontend then runs a
scheduler pass which re-admits it under the concurrency bound. -/
def resumeItem (item : QueueItem) : QueueItem :=
  if item.status == QueueStatus.Paused || item.status == QueueStatus.Failed then
    { item with status := QueueStatus.Pending }
  else item

/-- Modelled from the spec: the largest id present in the queue, used to
produce a fresh id for queue_add ("returns a new id"). -/
def maxId (q : List QueueItem) : Nat :=
  (q.map (fun i => i.id)).foldr Nat.max 0

/-- Modelled from the spec: the backend queue_add command.  It receives the
six request fields sent by addToQueue, creates a QueueItem in status Pending
with a fresh unique id, appends it to the queue, and returns the new id. -/
def queueAdd (now : Nat) (q : List QueueItem) (r : EnqueueRequest) :
    Nat × List QueueItem :=
  let newId := maxId q + 1
  (newId,
    q ++ [{ id := newId, url := r.url, title := r.title, thumbnail := r.thumbnail,
            quality := r.quality, output_dir := r.outputDir,
            output_filename := r.outputFilename, status := QueueStatus.Pending,
            progress := 0, speed := "", eta := "", error := none,
            file_path := none, added_at := now }])

/-- User-facing queue operations plus the scheduler pass. -/
inductive QueueOp
  | enqueue (req : EnqueueRequest) (now : Nat)
  | cancel (id : Nat)
  | pause (id : Nat)
  | resume (id : Nat)
  | tick

/-- Apply one operation to the queue. -/
def applyOp (maxConc : Nat) (q : List QueueItem) : QueueOp → List QueueItem
  | QueueOp.enqueue req now => (queueAdd now q req).2
  | QueueOp.cancel i => q.map (fun item => if item.id == i then cancelItem item else item)
  | QueueOp.pause i => q.map (fun item => if item.id == i then pauseItem item else item)
  | QueueOp.resume i => q.map (fun item => if item.id == i then resumeItem item else item)
  | QueueOp.tick => processQueue maxConc q

/-- Apply a sequence of operations, left to right. -/
def applyOps (maxConc : Nat) (ops : List QueueOp) (q : List QueueItem) : List QueueItem :=
  ops.foldl (fun acc op => applyOp maxConc acc op) q

/-! ## Download-progress handler (speed/ETA) from App.tsx -/

/-- Payload of a download-progress event for status "downloading"
(DownloadProgress interface in App.tsx); `downloaded_bytes || 0` and
`total_bytes || 0` coalesce absent fields to 0, so the two byte fields are
plain numbers here, and `speed_bps` keeps 0 for absent (it is only used
behind a truthiness test). -/
structure DownloadProgressEvent where
  progress : ℚ
  downloaded_bytes : ℚ
  total_bytes : ℚ
  speed_bps : ℚ
  deriving DecidableEq, Repr

/-- The component state touched by the download-progress listener:
progress, downloadedBytes, totalBytes, downloadSpeed, eta and the
lastProgressUpdate ref ((time in ms, bytes)). -/
structure ProgressState where
  progress : ℚ
  downloadedBytes : ℚ
  totalBytes : ℚ
  downloadSpeed : ℚ
  eta : Option ℚ
  lastProgressUpdate : Option (ℚ × ℚ)
  deriving DecidableEq, Repr

/-- setDownloadSpeed(prev => prev === 0 ? instantSpeed : prev * 0.7 +
instantSpeed * 0.3) from the download-progress listener. -/
def updateSpeed (prev instantSpeed : ℚ) : ℚ :=
  if prev = 0 then instantSpeed
  else prev * (7 / 10) + instantSpeed * (3 / 10)

/-- The "downloading" branch of the download-progress listener in App.tsx,
as one state-update step over the live state `s`.  The listener is
registered once inside the mount-only effect (deps []), so the plain
`downloadSpeed` identifier inside it denotes the closure-captured value of
the initial render — `capturedSpeed`, which is 0 in the program since the
state is initialised with useState(0) — and the ETA guard and division read
that captured value.  The functional updater setDownloadSpeed(prev => ...)
and the lastProgressUpdate ref act on live values, so they read `s`.
`now` is Date.now() in milliseconds. -/
def onDownloadingEvent (capturedSpeed now : ℚ) (s : ProgressState)
    (d : DownloadProgressEvent) : ProgressState :=
  let s1 := { s with progress := d.progress }
  let currentBytes := d.downloaded_bytes
  let total := d.total_bytes
  if 0 < currentBytes then
    let s2 := { s1 with downloadedBytes := currentBytes, totalBytes := total }
    let s3 :=
      match s.lastProgressUpdate with
      | some (t, b) =>
          let timeDiff := (now - t) / 1000
          let bytesDiff := currentBytes - b
          if 1 / 10 < timeDiff then
            { s2 with
                downloadSpeed := updateSpeed s.downloadSpeed (bytesDiff / timeDiff),
                lastProgressUpdate := some (now, currentBytes) }
          else s2
      | none => { s2 with lastProgressUpdate := some (now, currentBytes) }
    if 0 < capturedSpeed ∧ 0 < total then
      { s3 with eta := some ((total - currentBytes) / capturedSpeed) }
    else s3
  else
    if d.speed_bps ≠ 0 then { s1 with downloadSpeed := d.speed_bps } else s1

/-- The speed/ETA reset performed at the start of handleDownload in
App.tsx. -/
def resetProgressState (s : ProgressState) : ProgressState :=
  { s with progress := 0, downloadSpeed := 0, downloadedBytes := 0,
           totalBytes := 0, eta := none, lastProgressUpdate := none }

/-- padStart(2, "0") as applied to minute/second strings in formatEta. -/
def pad2 (s : String) : String :=
  if s.length < 2 then "0" ++ s else s

/-- formatEta from App.tsx.  ETA is an Option: none models the null state.
Rationals are always finite, so the !isFinite guard of the source is
vacuous here; JS remainder by truncation agrees with floor on the positive
values that reach the formatting branch. -/
def formatEta (seconds : Option ℚ) : String :=
  match seconds with
  | none => "--:--"
  | some sec =>
      if sec ≤ 0 then "--:--"
      else
        let hours := (Int.floor (sec / 3600)).toNat
        let minutes := (Int.floor ((sec - 3600 * Int.floor (sec / 3600)) / 60)).toNat
        let secs := (Int.floor (sec - 60 * Int.floor (sec / 60))).toNat
        if 0 < hours then
          toString hours ++ ":" ++ pad2 (toString minutes) ++ ":" ++ pad2 (toString secs)
        else
          toString minutes ++ ":" ++ pad2 (toString secs)

/-! ## Queue-item action buttons (queue tab render) from App.tsx -/

/-- Move up / move down buttons are rendered only for Pending items. -/
def showMoveUpDown (s : QueueStatus) : Bool :=
  s == QueueStatus.Pending

/-- The Pause button is rendered only for Downloading items. -/
def showPauseAction (s : QueueStatus) : Bool :=
  s == QueueStatus.Downloading

/-- The Resume button is rendered only for Paused items. -/
def showResumeAction (s : QueueStatus) : Bool :=
  s == QueueStatus.Paused

/-- The Retry button is rendered only for Failed items. -/
def showRetryAction (s : QueueStatus) : Bool :=
  s == QueueStatus.Failed

/-- The Cancel (X) button is rendered for Pending or Paused items. -/
def showCancelAction (s : QueueStatus) : Bool :=
  s == QueueStatus.Pending || s == QueueStatus.Paused

/-- The Remove (trash) button is rendered for Completed, Failed or Cancelled
items. -/
def showRemoveAction (s : QueueStatus) : Bool :=
  s == QueueStatus.Completed || s == QueueStatus.Failed || s == QueueStatus.Cancelled

/-- Modelled from the spec: segment-retry exhaustion escalates the whole
task to Failed with the SegmentFetchExhausted error recorded on the
QueueItem (the SegmentDownloader lives in the backend). -/
def segmentFetchExhausted (idx : Nat) (item : QueueItem) : QueueItem :=
  { item with status := QueueStatus.Failed,
              error := some ("SegmentFetchExhausted " ++ toString idx) }

/-! ## History emission (handleDownload) from App.tsx -/

/-- A history record as built in handleDownload (HistoryItem interface in
App.tsx). -/
structure HistoryItem where
  id : String
  url : String
  title : String
  thumbnail : String
  filename : String
  quality : String
  downloaded_at : String
  file_path : String
  file_size : Option Nat
  deriving DecidableEq, Repr

/-- filename || "video.mp4" (JS truthiness: the empty string is falsy). -/
def effectiveFilename (filename : String) : String :=
  if filename == "" then "video.mp4" else filename

/-- videoInfo?.title || filename || "Unknown"; an absent videoInfo title is
modelled by the empty string, which is falsy in JS either way. -/
def historyTitle (videoTitle filename : String) : String :=
  if videoTitle == "" then
    (if filename == "" then "Unknown" else filename)
  else videoTitle

/-- The history emission of handleDownload in App.tsx: when the
download_video invocation succeeds, a HistoryItem built from the form state
is sent to add_to_history; when it fails, the catch branch emits nothing.
`nowId` is Date.now().toString(), `nowIso` the ISO timestamp. -/
def handleDownloadOutcome (nowId nowIso urlInput outputDir filename quality
    videoTitle videoThumb : String) (result : Except String String) :
    Option HistoryItem :=
  match result with
  | Except.error _ => none
  | Except.ok _ =>
      some { id := nowId, url := urlInput.trim,
             title := historyTitle videoTitle filename,
             thumbnail := videoThumb,
             filename := effectiveFilename filename,
             quality := quality,
             downloaded_at := nowIso,
             file_path := outputDir ++ "/" ++ effectiveFilename filename,
             file_size := none }

/-! ## addToQueue action sequence and the auto-process effect -/

/-- The externally visible steps addToQueue can take, in order. -/
inductive UiAction
  | invokeQueueAdd (req : EnqueueRequest)
  | logSuccess
  | reloadQueue
  | clearForm
  | runProcessQueue
  | logError
  deriving DecidableEq, Repr

/-- The sequence of steps addToQueue performs (App.tsx): without fetched
video info it only logs an error; otherwise queue_add, success log, queue
reload, form clear, and — only when settings.auto_start_queue is set — a
processQueue pass. -/
def addToQueueActions (hasVideoInfo : Bool) (autoStartQueue : Bool)
    (req : EnqueueRequest) : List UiAction :=
  if hasVideoInfo = false then [UiAction.logError]
  else
    [UiAction.invokeQueueAdd req, UiAction.logSuccess, UiAction.reloadQueue,
     UiAction.clearForm]
      ++ (if autoStartQueue then [UiAction.runProcessQueue] else [])

/-- The auto-process effect in App.tsx: on any queue change it runs
processQueue exactly when a Pending item exists, the Downloading count is
below the configured maximum, and auto_start_queue is enabled. -/
def autoProcessTriggers (q : List QueueItem) (maxConc : Nat)
    (autoStartQueue : Bool) : Bool :=
  decide (0 < (pendingItems q).length) && decide (downloadingCount q < maxConc)
    && autoStartQueue

/-! ## queue-progress listener from App.tsx -/

/-- data.file_path || item.file_path (JS truthiness: null and the empty
string are falsy). -/
def jsOrPath (evPath itemPath : Option String) : Option String :=
  match evPath with
  | none => itemPath
  | some s => if s == "" then itemPath else some s

/-- The per-item update of the queue-progress listener: the item whose id
matches the event takes the event's status, progress, speed, eta and
(truthily) file_path; every other item is returned unchanged. -/
def updateItemForProgress (ev : QueueProgress) (item : QueueItem) : QueueItem :=
  if item.id == ev.id then
    { item with status := ev.status, progress := ev.progress, speed := ev.speed,
                eta := ev.eta, file_path := jsOrPath ev.file_path item.file_path }
  else item

/-- setQueue(prev => prev.map(...)) in the queue-progress listener. -/
def applyQueueProgress (ev : QueueProgress) (q : List QueueItem) : List QueueItem :=
  q.map (updateItemForProgress ev)

/-! ## URL checks from App.tsx -/

/-- Result of a successful `new URL(...)` construction, restricted to the
fields the frontend reads. -/
structure URLParts where
  protocol : String
  hostname : String
  deriving DecidableEq, Repr

/-- The four SUPPORTED_SITES regex patterns from App.tsx; each is a literal
(escaped-dot) pattern matched case-insensitively anywhere in the
hostname, so they are modelled as substrings. -/
def SUPPORTED_SITES : List String :=
  ["xn--12ca1ddhqak6ecxc9b.com",
   "บ้านจีน.com",
   "xn--12cg1cxchd0a2a4c5c5b.online",
   "หนังสั้นจีน.online"]

/-- Substring test on the underlying character lists. -/
def strContains (h p : String) : Bool :=
  (List.range (h.data.length + 1)).any (fun i => p.data.isPrefixOf (h.data.drop i))

/-- pattern.test(hostname) for one of the literal /i patterns: substring
match after ASCII lower-casing of both sides. -/
def regexTestInsensitive (pat host : String) : Bool :=
  strContains host.toLower pat.toLower

/-- isSupportedUrl from App.tsx.  The `new URL` constructor is a platform
capability; it is abstracted as a `parse` function returning none exactly
when the constructor throws, which the catch branch turns into false. -/
def isSupportedUrl (parse : String → Option URLParts) (url : String) : Bool :=
  match parse url with
  | none => false
  | some u => SUPPORTED_SITES.any (fun pat => regexTestInsensitive pat u.hostname)

/-- isValidUrl from App.tsx, with the same abstraction of `new URL`. -/
def isValidUrl (parse : String → Option URLParts) (str : String) : Bool :=
  match parse str with
  | none => false
  | some u => u.protocol == "http:" || u.protocol == "https:"

/-! ## Concrete sample values used by witnesses and counterexamples -/

/-- A sample enqueue request. -/
def sampleRequest : EnqueueRequest :=
  { url := "https://xn--12ca1ddhqak6ecxc9b.com/video-page/", title := "ตัวอย่าง",
    thumbnail := "", quality := "auto", outputDir := "C:/dl",
    outputFilename := "video.mp4" }

/-- A sample queue item that already carries a file path. -/
def sampleItem : QueueItem :=
  { id := 1, url := "https://example.com/v", title := "t", thumbnail := "",
    quality := "720p", output_dir := "C:/dl", output_filename := "a.mp4",
    status := QueueStatus.Downloading, progress := 40, speed := "1.0 MB/s",
    eta := "0:30", error := none, file_path := some "C:/dl/a.mp4", added_at := 7 }

/-- A sample queue-progress event addressed to an id other than
sampleItem's. -/
def sampleProgressEvent : QueueProgress :=
  { id := 2, status := QueueStatus.Downloading, progress := 50,
    speed := "1.2 MB/s", eta := "0:10", message := "", file_path := none }

/-- A sample in-flight progress state with a previous speed sample. -/
def sampleProgressState : ProgressState :=
  { progress := 10, downloadedBytes := 0, totalBytes := 0, downloadSpeed := 0,
    eta := none, lastProgressUpdate := some (0, 0) }

/-- A sample downloading event: 100 bytes after 2000 ms. -/
def sampleDownloadEvent : DownloadProgressEvent :=
  { progress := 20, downloaded_bytes := 100, total_bytes := 1000, speed_bps := 0 }

/-! ## Lemmas about the scheduler pass -/

theorem downloadingCount_cons (a : QueueItem) (t : List QueueItem) :
    downloadingCount (a :: t) =
      (if a.status = QueueStatus.Downloading then 1 else 0) + downloadingCount t := by
  by_cases h : a.status = QueueStatus.Downloading
  · simp [downloadingCount, List.filter_cons, h]
    omega
  · simp [downloadingCount, List.filter_cons, h]

theorem downloadingCount_append (q r : List QueueItem) :
    downloadingCount (q ++ r) = downloadingCount q + downloadingCount r := by
  simp [downloadingCount, List.filter_append]

theorem downloadingCount_admitPending (k : Nat) (q : List QueueItem) :
    downloadingCount (admitPending k q) ≤ downloadingCount q + k := by
  induction q generalizing k with
  | nil => cases k <;> simp [admitPending]
  | cons a t ih =>
      cases k with
      | zero => simp [admitPending]
      | succ k =>
          by_cases h : a.status == QueueStatus.Pending
          · have hP : a.status = QueueStatus.Pending := by simpa using h
            have h1 := ih k
            simp only [admitPending]
            rw [if_pos h]
            rw [downloadingCount_cons, downloadingCount_cons]
            simp only [startDownload, hP]
            simp
            omega
          · have h1 := ih (Nat.succ k)
            simp only [admitPending]
            rw [if_neg h]
            rw [downloadingCount_cons, downloadingCount_cons]
            omega

theorem downloadingCount_processQueue (maxConc : Nat) (q : List QueueItem) :
    downloadingCount (processQueue maxConc q) ≤ max (downloadingCount q) maxConc := by
  simp only [processQueue]
  have hb := downloadingCount_admitPending
      ((min ((pendingItems q).length : Int)
        ((maxConc : Int) - (downloadingCount q : Int))).toNat) q
  have h1 : min ((pendingItems q).length : Int)
      ((maxConc : Int) - (downloadingCount q : Int))
      ≤ (maxConc : Int) - (downloadingCount q : Int) := min_le_right _ _
  have h2 := Int.toNat_le_toNat h1
  rcases Nat.le_total (downloadingCount q) maxConc with hcm | hcm
  · rw [max_eq_right hcm]
    omega
  · rw [max_eq_left hcm]
    omega

theorem cancelItem_status (i : QueueItem) :
    (cancelItem i).status = QueueStatus.Downloading →
      i.status = QueueStatus.Downloading := by
  unfold cancelItem
  split
  · intro h; simp at h
  · intro h; exact h

theorem pauseItem_status (i : QueueItem) :
    (pauseItem i).status = QueueStatus.Downloading →
      i.status = QueueStatus.Downloading := by
  unfold pauseItem
  split
  · intro h; simp at h
  · intro h; exact h

theorem resumeItem_status (i : QueueItem) :
    (resumeItem i).status = QueueStatus.Downloading →
      i.status = QueueStatus.Downloading := by
  unfold resumeItem
  split
  · intro h; simp at h
  · intro h; exact h

theorem downloadingCount_map_le (f : QueueItem → QueueItem) (q : List QueueItem)
    (hf : ∀ i, (f i).status = QueueStatus.Downloading →
      i.status = QueueStatus.Downloading) :
    downloadingCount (q.map f) ≤ downloadingCount q := by
  induction q with
  | nil => simp [downloadingCount]
  | cons a t ih =>
      rw [List.map_cons, downloadingCount_cons, downloadingCount_cons]
      have hle : (if (f a).status = QueueStatus.Downloading then 1 else 0)
          ≤ (if a.status = QueueStatus.Downloading then 1 else 0) := by
        by_cases h : (f a).status = QueueStatus.Downloading
        · simp [h, hf a h]
        · simp [h]
      omega

theorem downloadingCount_enqueue (now : Nat) (q : List QueueItem) (r : EnqueueRequest) :
    downloadingCount (queueAdd now q r).2 = downloadingCount q := by
  simp only [queueAdd]
  rw [downloadingCount_append, downloadingCount_cons]
  simp [downloadingCount]

theorem downloadingCount_applyOp (mx : Nat) (q : List QueueItem) (op : QueueOp)
    (h : downloadingCount q ≤ mx) :
    downloadingCount (applyOp mx q op) ≤ mx := by
  cases op with
  | enqueue req now =>
      simp only [applyOp]
      rw [downloadingCount_enqueue]
      exact h
  | cancel idv =>
      simp only [applyOp]
      refine le_trans (downloadingCount_map_le _ q ?_) h
      intro i hi
      by_cases hid : i.id == idv
      · rw [if_pos hid] at hi; exact cancelItem_status i hi
      · rwa [if_neg hid] at hi
  | pause idv =>
      simp only [applyOp]
      refine le_trans (downloadingCount_map_le _ q ?_) h
      intro i hi
      by_cases hid : i.id == idv
      · rw [if_pos hid] at hi; exact pauseItem_status i hi
      · rwa [if_neg hid] at hi
  | resume idv =>
      simp only [applyOp]
      refine le_trans (downloadingCount_map_le _ q ?_) h
      intro i hi
      by_cases hid : i.id == idv
      · rw [if_pos hid] at hi; exact resumeItem_status i hi
      · rwa [if_neg hid] at hi
  | tick =>
      simp only [applyOp]
      have h1 := downloadingCount_processQueue mx q
      rw [max_eq_right h] at h1
      exact h1

theorem downloadingCount_applyOps (mx : Nat) (ops : List QueueOp) (q : List QueueItem)
    (h : downloadingCount q ≤ mx) :
    downloadingCount (applyOps mx ops q) ≤ mx := by
  induction ops generalizing q with
  | nil => simpa [applyOps] using h
  | cons op rest ih =>
      have h1 := downloadingCount_applyOp mx q op h
      have h2 := ih (applyOp mx q op) h1
      simpa [applyOps] using h2

/-- C1: for any sequence of enqueue/cancel/pause/resume/tick operations
starting from the empty queue, the number of items in status Downloading
never exceeds the configured max_concurrent_downloads; moreover a single
scheduler pass (processQueue) admits at most
(max_concurrent_downloads - current Downloading count) Pending items, taken
in queue order, so it can never push the Downloading count above the
maximum. -/
theorem concurrency_bound_invariant (mx : Nat) (ops : List QueueOp)
    (q : List QueueItem) :
    downloadingCount (applyOps mx ops []) ≤ mx
    ∧ downloadingCount (processQueue mx q) ≤ max (downloadingCount q) mx :=
  ⟨downloadingCount_applyOps mx ops [] (by simp [downloadingCount]),
   downloadingCount_processQueue mx q⟩

/-- C2: on every progress update that carries a new instantaneous speed
sample (a previous byte/time reference exists, the byte counter is positive
and more than 100 ms have passed), the reported download speed becomes the
exponential moving average prev * 0.7 + sample * 0.3 (weight 0.3 on the new
sample), except that a prior value of 0 is replaced by the sample
directly. -/
theorem speed_ema_update (capturedSpeed now t b : ℚ) (s : ProgressState)
    (d : DownloadProgressEvent)
    (hlast : s.lastProgressUpdate = some (t, b))
    (hbytes : 0 < d.downloaded_bytes)
    (htime : 1 / 10 < (now - t) / 1000) :
    (onDownloadingEvent capturedSpeed now s d).downloadSpeed =
      if s.downloadSpeed = 0 then (d.downloaded_bytes - b) / ((now - t) / 1000)
      else s.downloadSpeed * (7 / 10)
        + ((d.downloaded_bytes - b) / ((now - t) / 1000)) * (3 / 10) := by
  simp only [onDownloadingEvent, hlast]
  rw [if_pos hbytes, if_pos htime]
  by_cases hP : 0 < capturedSpeed ∧ 0 < d.total_bytes
  · rw [if_pos hP]
    simp [updateSpeed]
  · rw [if_neg hP]
    simp [updateSpeed]

/-- Witness for C2: 100 bytes after 2000 ms with no prior speed yields
50 bytes per second (the listener's closure-captured speed is the program's
initial 0). -/
theorem speed_ema_update_witness :
    (onDownloadingEvent 0 2000 sampleProgressState
        sampleDownloadEvent).downloadSpeed = 50 := by
  have h := speed_ema_update 0 2000 0 0 sampleProgressState sampleDownloadEvent
      rfl (by norm_num [sampleDownloadEvent]) (by norm_num)
  rw [h]
  norm_num [sampleProgressState, sampleDownloadEvent]

/-- C3: the download-progress listener is registered once in the mount-only
effect, so its ETA guard reads the closure-captured initial downloadSpeed,
which is 0 in the program; hence the handler never sets an ETA value for any
state and event — the claimed derivation
etaSeconds = (totalBytes - downloadedBytes) / speed never runs — the ETA
stays at its reset value none, and the null ETA is displayed as "--:--". -/
theorem eta_never_set (now : ℚ) (s : ProgressState) (d : DownloadProgressEvent) :
    (onDownloadingEvent 0 now s d).eta = s.eta
    ∧ (∀ s0 : ProgressState, (resetProgressState s0).eta = none)
    ∧ formatEta none = "--:--" := by
  refine ⟨?_, fun s0 => rfl, rfl⟩
  simp only [onDownloadingEvent]
  have hP : ¬ ((0 : ℚ) < 0 ∧ 0 < d.total_bytes) := by
    rintro ⟨h0, _⟩
    exact absurd h0 (lt_irrefl 0)
  by_cases hb : 0 < d.downloaded_bytes
  · rw [if_pos hb, if_neg hP]
    rcases hl : s.lastProgressUpdate with _ | ⟨t, b⟩
    · rfl
    · dsimp only
      split <;> rfl
  · rw [if_neg hb]
    split <;> rfl

/-- C4 counterexample: a Paused item gets no reorder (move up/down) buttons,
and a Completed item does get a Remove button, so remove and reorder are not
available exactly in {Pending, Paused}. -/
theorem action_availability_counterexample :
    showMoveUpDown QueueStatus.Paused = false
    ∧ showRemoveAction QueueStatus.Completed = true :=
  ⟨rfl, rfl⟩

theorem map_id_of_preserve (f : QueueItem → QueueItem)
    (hf : ∀ i, (f i).id = i.id) (q : List QueueItem) :
    (q.map f).map (fun i => i.id) = q.map (fun i => i.id) := by
  induction q with
  | nil => rfl
  | cons a t ih => simp [hf, ih]

theorem admitPending_map_id (k : Nat) (q : List QueueItem) :
    (admitPending k q).map (fun i => i.id) = q.map (fun i => i.id) := by
  induction q generalizing k with
  | nil => cases k <;> rfl
  | cons a t ih =>
      cases k with
      | zero => rfl
      | succ k =>
          by_cases h : a.status == QueueStatus.Pending
          · simp only [admitPending]
            rw [if_pos h]
            simp [startDownload, ih k]
          · simp only [admitPending]
            rw [if_neg h]
            simp [ih (Nat.succ k)]

/-- C4 amended: reorder (move up/down) is available exactly for Pending
items; the cancel (X) action is available exactly for Pending or Paused
items; the remove (trash) action is available exactly for Completed, Failed
or Cancelled items; and no queue operation (enqueue, cancel, pause, resume
or scheduler pass) and no queue-progress event ever drops an item from the
list — the id sequence is unchanged, or extended by the one enqueued id —
so terminal items remain in the queue list until the explicit remove/clear
commands delete them. -/
theorem action_availability (s : QueueStatus) (mx : Nat) (q : List QueueItem)
    (op : QueueOp) :
    ((showMoveUpDown s = true ↔ s = QueueStatus.Pending)
    ∧ (showCancelAction s = true
        ↔ (s = QueueStatus.Pending ∨ s = QueueStatus.Paused))
    ∧ (showRemoveAction s = true
        ↔ (s = QueueStatus.Completed ∨ s = QueueStatus.Failed
            ∨ s = QueueStatus.Cancelled)))
    ∧ ((applyOp mx q op).map (fun i => i.id) = q.map (fun i => i.id)
        ∨ ∃ n : Nat, (applyOp mx q op).map (fun i => i.id)
            = q.map (fun i => i.id) ++ [n])
    ∧ (∀ ev : QueueProgress,
        (applyQueueProgress ev q).map (fun i => i.id) = q.map (fun i => i.id)) := by
  refine ⟨?_, ?_, ?_⟩
  · cases s <;> simp [showMoveUpDown, showCancelAction, showRemoveAction]
  · cases op with
    | enqueue req now =>
        refine Or.inr ⟨maxId q + 1, ?_⟩
        simp [applyOp, queueAdd]
    | cancel idv =>
        refine Or.inl (map_id_of_preserve _ ?_ q)
        intro i
        by_cases h : i.id == idv
        · rw [if_pos h]
          unfold cancelItem
          split <;> rfl
        · rw [if_neg h]
    | pause idv =>
        refine Or.inl (map_id_of_preserve _ ?_ q)
        intro i
        by_cases h : i.id == idv
        · rw [if_pos h]
          unfold pauseItem
          split <;> rfl
        · rw [if_neg h]
    | resume idv =>
        refine Or.inl (map_id_of_preserve _ ?_ q)
        intro i
        by_cases h : i.id == idv
        · rw [if_pos h]
          unfold resumeItem
          split <;> rfl
        · rw [if_neg h]
    | tick =>
        exact Or.inl (admitPending_map_id _ q)
  · intro ev
    refine map_id_of_preserve _ ?_ q
    intro i
    unfold updateItemForProgress
    split <;> rfl

theorem processQueue_singleton_pending (mx : Nat) (i : QueueItem)
    (h : i.status = QueueStatus.Pending) :
    processQueue (mx + 1) [i] = [startDownload i] := by
  have h0 : downloadingCount [i] = 0 := by
    simp [downloadingCount, h]
  have hp : pendingItems [i] = [i] := by
    simp [pendingItems, h]
  simp only [processQueue, h0, hp, List.length_singleton, Nat.cast_zero, sub_zero,
    Nat.cast_one]
  have hmin : (min (1 : Int) ((mx + 1 : Nat) : Int)).toNat = 1 := by
    rw [min_eq_left (by omega)]
    rfl
  rw [hmin]
  simp [admitPending, h]

/-- C5: a task failed by segment-retry exhaustion carries the
SegmentFetchExhausted error recorded on the QueueItem; the explicit retry
operation (queue_resume behind the Retry button) transitions it to Pending —
not directly to Downloading — after which a scheduler pass with a free slot
re-admits it. -/
theorem retry_failed_transitions_to_pending (item : QueueItem) (idx mx : Nat) :
    (segmentFetchExhausted idx item).status = QueueStatus.Failed
    ∧ (segmentFetchExhausted idx item).error
        = some ("SegmentFetchExhausted " ++ toString idx)
    ∧ (resumeItem (segmentFetchExhausted idx item)).status = QueueStatus.Pending
    ∧ downloadingCount
        (processQueue (mx + 1) [resumeItem (segmentFetchExhausted idx item)])
        = 1 := by
  have hst : (resumeItem (segmentFetchExhausted idx item)).status
      = QueueStatus.Pending := by
    simp [resumeItem, segmentFetchExhausted]
  refine ⟨rfl, rfl, hst, ?_⟩
  rw [processQueue_singleton_pending mx _ hst]
  simp [downloadingCount, startDownload]

theorem maxId_cons (a : QueueItem) (t : List QueueItem) :
    maxId (a :: t) = Nat.max a.id (maxId t) := by
  simp [maxId]

theorem id_le_maxId (q : List QueueItem) : ∀ i ∈ q, i.id ≤ maxId q := by
  induction q with
  | nil => simp
  | cons a t ih =>
      intro i hi
      rw [maxId_cons]
      rcases List.mem_cons.mp hi with h | h
      · subst h
        exact Nat.le_max_left _ _
      · exact le_trans (ih i h) (Nat.le_max_right _ _)

/-- C6: an enqueue request carries exactly the six fields sent by addToQueue
(url, title, thumbnail, quality, outputDir, outputFilename — the
EnqueueRequest structure); queue_add returns an id not used by any existing
queue item and appends a new item in status Pending whose fields come from
the request. -/
theorem enqueue_creates_pending_item (now : Nat) (q : List QueueItem)
    (r : EnqueueRequest) :
    (queueAdd now q r).2
      = q ++ [{ id := (queueAdd now q r).1, url := r.url, title := r.title,
                thumbnail := r.thumbnail, quality := r.quality,
                output_dir := r.outputDir, output_filename := r.outputFilename,
                status := QueueStatus.Pending, progress := 0, speed := "",
                eta := "", error := none, file_path := none, added_at := now }]
    ∧ ∀ i ∈ q, i.id ≠ (queueAdd now q r).1 := by
  constructor
  · rfl
  · intro i hi
    have h := id_le_maxId q i hi
    simp only [queueAdd]
    omega

/-- Witness for C6: enqueueing into a queue that already holds sampleItem
returns an id different from sampleItem's. -/
theorem enqueue_creates_pending_item_witness :
    sampleItem.id ≠ (queueAdd 9 [sampleItem] sampleRequest).1 :=
  (enqueue_creates_pending_item 9 [sampleItem] sampleRequest).2 sampleItem
    (by simp)

/-- C7: when the download_video invocation succeeds, handleDownload emits
exactly one history record {id, url, title, thumbnail, filename, quality,
completedAt, filePath, fileSize} with filePath = outputDir/outputFilename
(the filename defaulting to "video.mp4"); when the invocation fails, no
history record is emitted. -/
theorem history_emitted_on_completion (nowId nowIso urlInput outputDir filename
    quality vt vth msg err : String) :
    handleDownloadOutcome nowId nowIso urlInput outputDir filename quality vt vth
        (Except.ok msg)
      = some { id := nowId, url := urlInput.trim,
               title := historyTitle vt filename, thumbnail := vth,
               filename := effectiveFilename filename, quality := quality,
               downloaded_at := nowIso,
               file_path := outputDir ++ "/" ++ effectiveFilename filename,
               file_size := none }
    ∧ handleDownloadOutcome nowId nowIso urlInput outputDir filename quality vt vth
        (Except.error err) = none :=
  ⟨rfl, rfl⟩

/-- C8 counterexample: with auto_start_queue disabled, addToQueue performs
no scheduler pass after the enqueue, and the auto-process effect does not
run one either — even with a Pending item and a free slot. -/
theorem enqueue_tick_counterexample :
    UiAction.runProcessQueue ∉ addToQueueActions true false sampleRequest
    ∧ autoProcessTriggers [{ sampleItem with status := QueueStatus.Pending }] 2
        false = false := by
  constructor
  · simp [addToQueueActions]
  · simp [autoProcessTriggers]

/-- C8 amended: a scheduler pass runs immediately after an enqueue exactly
when auto_start_queue is enabled, and the auto-process effect reacting to
every queue change (including status changes) runs a pass exactly when a
Pending item exists and the Downloading count is below the configured
maximum (with auto_start_queue enabled). -/
theorem enqueue_triggers_tick (req : EnqueueRequest) (q : List QueueItem)
    (mx : Nat) :
    (∀ auto : Bool,
        UiAction.runProcessQueue ∈ addToQueueActions true auto req ↔ auto = true)
    ∧ (autoProcessTriggers q mx true = true
        ↔ (0 < (pendingItems q).length ∧ downloadingCount q < mx)) := by
  constructor
  · intro auto
    cases auto <;> simp [addToQueueActions]
  · simp [autoProcessTriggers]

/-- C9: a queue-progress event updates only the queue item whose id matches
(any other item keeps every field), the matching item's file_path is never
replaced by null once a non-null value is present (a null or empty event
path keeps the previous one), and the listener is the pointwise map of this
per-item update over the queue. -/
theorem queue_progress_frame (ev : QueueProgress) (item : QueueItem) :
    (item.id ≠ ev.id → updateItemForProgress ev item = item)
    ∧ (item.file_path ≠ none → (updateItemForProgress ev item).file_path ≠ none)
    ∧ (∀ q : List QueueItem,
        applyQueueProgress ev q = q.map (updateItemForProgress ev)) := by
  refine ⟨?_, ?_, fun q => rfl⟩
  · intro h
    simp [updateItemForProgress, h]
  · intro h
    unfold updateItemForProgress
    split
    · rcases hp : ev.file_path with _ | s
      · simpa [jsOrPath, hp] using h
      · by_cases hs : s == ""
        · simpa [jsOrPath, hp, hs] using h
        · simp [jsOrPath, hp, hs]
    · exact h

/-- Witness for C9: an event addressed to id 2 leaves the sample item with
id 1 untouched and keeps its non-null file path. -/
theorem queue_progress_frame_witness :
    updateItemForProgress sampleProgressEvent sampleItem = sampleItem
    ∧ (updateItemForProgress sampleProgressEvent sampleItem).file_path ≠ none :=
  ⟨(queue_progress_frame sampleProgressEvent sampleItem).1 (by decide),
   (queue_progress_frame sampleProgressEvent sampleItem).2.1 (by simp [sampleItem])⟩

/-- C10: with the platform URL constructor abstracted as `parse` (none
exactly when `new URL` throws), both checks are total: every string that
does not parse yields false from both; isValidUrl is true exactly for
parsed URLs whose protocol is http: or https:; isSupportedUrl is true
exactly when the parsed hostname matches one of the four supported-site
patterns. -/
theorem url_checks_total (parse : String → Option URLParts) (s : String) :
    (parse s = none → isValidUrl parse s = false ∧ isSupportedUrl parse s = false)
    ∧ (isValidUrl parse s = true
        ↔ ∃ u, parse s = some u
            ∧ (u.protocol = "http:" ∨ u.protocol = "https:"))
    ∧ (isSupportedUrl parse s = true
        ↔ ∃ u, parse s = some u
            ∧ ∃ pat ∈ SUPPORTED_SITES, regexTestInsensitive pat u.hostname = true)
    ∧ SUPPORTED_SITES.length = 4 := by
  refine ⟨?_, ?_, ?_, rfl⟩
  · intro h
    simp [isValidUrl, isSupportedUrl, h]
  · rcases hp : parse s with _ | u
    · simp [isValidUrl, hp]
    · simp [isValidUrl, hp]
  · rcases hp : parse s with _ | u
    · simp [isSupportedUrl, hp]
    · simp [isSupportedUrl, hp, List.any_eq_true]

/-- Witness for C10: a string rejected by the URL constructor makes both
checks return false. -/
theorem url_checks_total_witness :
    isValidUrl (fun _ => none) "not a url" = false
    ∧ isSupportedUrl (fun _ => none) "not a url" = false :=
  (url_checks_total (fun _ => none) "not a url").1 rfl

end ThaiVideo
